import Mathlib

/-!
# acct-expansion-lambda: the detokenization exchange

A shallow embedding of `detokenization/types.go`, `detokenization/detokenize.go`
and `main.go`.

Go strings and byte slices are represented as Unicode text (`String`, `List Char`):
the embedding covers bodies and strings that are valid UTF-8.  Everything the
program takes from outside (environment variables, URL parsing inside
`http.NewRequest`, the HTTP exchange, reading the body) is a field of `World`.
The parts of `encoding/json` the program relies on are written out below:
the validating scanner, string unquoting, the decoding of the three structs,
and the encoding of `RequestPayload`.
-/

namespace AcctExpansion

/-! ## Go values -/

/-- A Go `[]string`.  `nil` is the nil slice.  For a non-nil slice `elems` are the
elements up to the length; `spare` are the slots of the backing array past the
length that still hold earlier content (a slot never written holds the empty
string, as does every slot of a newly grown backing array, so the capacity itself
is not recorded). -/
inductive StrSlice
  | nil
  | mk (elems : List String) (spare : List String)
deriving DecidableEq, Repr

/-- The elements of a slice, `nil` having none. -/
def StrSlice.toList : StrSlice → List String
  | .nil => []
  | .mk es _ => es

/-- Whether the slice is the nil slice. -/
def StrSlice.isNil : StrSlice → Bool
  | .nil => true
  | .mk _ _ => false

/-- The kinds of JSON value named by `json.UnmarshalTypeError.Value`. -/
inductive JKind
  | bool | number | string | array | object
deriving DecidableEq, Repr

/-- A Go `error` value.  `msg` is an error made from a text only (`errors.New`,
`fmt.Errorf` without `%w`, and the errors handed in by the environment);
`wrap pre inner` is `fmt.Errorf(pre + "%w", inner)`; the two remaining
constructors are the errors of `json.Unmarshal`. -/
inductive GoError
  | msg (text : String)
  | wrap (pre : String) (inner : GoError)
  | jsonSyntax
  | jsonType (value : JKind) (goType : String)
deriving DecidableEq, Repr

/-! ## JSON values and the scanner of `encoding/json` -/

/-- A JSON value as delivered by the scanner: strings and object keys are already
unquoted, numbers keep their literal text, object members keep their order and
their duplicates. -/
inductive JValue
  | null
  | bool (b : Bool)
  | number (lit : String)
  | str (s : String)
  | arr (xs : List JValue)
  | obj (ms : List (String × JValue))

/-- The kind reported for a value that does not fit its target (`null` fits all). -/
def JValue.kind : JValue → Option JKind
  | .null => none
  | .bool _ => some .bool
  | .number _ => some .number
  | .str _ => some .string
  | .arr _ => some .array
  | .obj _ => some .object

/-- Value of a hexadecimal digit (`getu4`). -/
def hexVal (c : Char) : Nat :=
  if '0' ≤ c ∧ c ≤ '9' then c.toNat - 48
  else if 'a' ≤ c ∧ c ≤ 'f' then c.toNat - 87
  else if 'A' ≤ c ∧ c ≤ 'F' then c.toNat - 55
  else 0

/-- Whether the rune is in the UTF-16 surrogate range (`utf16.IsSurrogate`). -/
def isSurrogate (r : Nat) : Bool := 0xd800 ≤ r && r < 0xe000

/-- The rune `unicode.ReplacementChar`. -/
def replacementChar : Char := Char.ofNat 0xfffd

/-- Position of `unquoteBytes` inside a string literal: in plain text, after a
backslash, inside the four digits of a `\u` escape, or after a `\u` escape that
gave a surrogate `h` and is waiting to see whether a second escape completes it. -/
inductive UQ
  | plain
  | esc
  | hex (k : Nat) (acc : Nat)
  | hi (h : Nat)
  | hiEsc (h : Nat)
  | hiHex (h : Nat) (k : Nat) (acc : Nat)
deriving DecidableEq, Repr

/-- The character written for a one-letter escape. -/
def escapeLetter (c : Char) : List Char :=
  if c = 'b' then [Char.ofNat 8]
  else if c = 'f' then [Char.ofNat 12]
  else if c = 'n' then ['\n']
  else if c = 'r' then ['\r']
  else if c = 't' then ['\t']
  else if c = '"' ∨ c = '\\' ∨ c = '/' ∨ c = '\'' then [c]
  else []

/-- The outcome of a completed `\uXXXX` escape with value `rr` read on its own:
a surrogate waits for its partner, any other rune is written. -/
def afterU4 (rr : Nat) : UQ × List Char :=
  if isSurrogate rr then (.hi rr, []) else (.plain, [Char.ofNat rr])

/-- One character of `unquoteBytes`: the next position and the characters written. -/
def unquoteStep : UQ → Char → UQ × List Char
  | .plain, c => if c = '\\' then (.esc, []) else (.plain, [c])
  | .esc, c => if c = 'u' then (.hex 0 0, []) else (.plain, escapeLetter c)
  | .hex k acc, c =>
    let rr := acc * 16 + hexVal c
    if k + 1 < 4 then (.hex (k + 1) rr, []) else afterU4 rr
  | .hi h, c =>
    if c = '\\' then (.hiEsc h, []) else (.plain, [replacementChar, c])
  | .hiEsc h, c =>
    if c = 'u' then (.hiHex h 0 0, [])
    else (.plain, replacementChar :: escapeLetter c)
  | .hiHex h k acc, c =>
    let rr := acc * 16 + hexVal c
    if k + 1 < 4 then (.hiHex h (k + 1) rr, [])
    else if 0xd800 ≤ h ∧ h < 0xdc00 ∧ 0xdc00 ≤ rr ∧ rr < 0xe000 then
      (.plain, [Char.ofNat ((h - 0xd800) * 1024 + (rr - 0xdc00) + 0x10000)])
    else
      let r := afterU4 rr
      (r.1, replacementChar :: r.2)

/-- Runs `unquoteStep` over a literal from a position, collecting what is written. -/
def unquoteFrom : UQ → List Char → UQ × List Char
  | q, [] => (q, [])
  | q, c :: cs =>
    let r := unquoteStep q c
    let r2 := unquoteFrom r.1 cs
    (r2.1, r.2 ++ r2.2)

/-- The text of a string literal given the characters between its quotes
(`unquoteBytes` on a literal the scanner accepted).  A surrogate escape left
without a partner at the end becomes the replacement character. -/
def unquote (raw : List Char) : String :=
  let r := unquoteFrom .plain raw
  match r.1 with
  | .hi _ => String.mk (r.2 ++ [replacementChar])
  | _ => String.mk r.2

/-- The step functions of `scanner` (`scanner.go`), by name. -/
inductive Mode
  | beginValue | beginValueOrEmpty | beginStringOrEmpty | beginString
  | endValue | endTop
  | inString | inStringEsc | inStringEscU | inStringEscU1 | inStringEscU12
  | inStringEscU123
  | neg | s1 | s0 | dot | dot0 | e | eSign | e0
  | t | tr | tru | f | fa | fal | fals | n | nu | nul
deriving DecidableEq, Repr

/-- An entry of `scanner.parseState`, together with what has been read of the
array or object so far. -/
inductive Frame
  | objectKey (acc : List (String × JValue))
  | objectValue (acc : List (String × JValue)) (key : String)
  | arrayValue (acc : List JValue)

/-- The scanner: its step function, its stack of open arrays and objects
(innermost first), the text read so far of the literal being scanned (empty
outside a string or number), and the value just completed. -/
structure Scanner where
  step : Mode
  parseState : List Frame
  lit : List Char
  done : Option JValue

/-- The limit on nesting of arrays and objects. -/
def maxNestingDepth : Nat := 10000

/-- The four JSON white space characters. -/
def isSpace (c : Char) : Bool := c = ' ' || c = '\t' || c = '\r' || c = '\n'

/-- Whether the character is a decimal digit. -/
def isDigit (c : Char) : Bool := '0' ≤ c && c ≤ '9'

/-- Whether the character is a hexadecimal digit. -/
def isHex (c : Char) : Bool :=
  ('0' ≤ c && c ≤ '9') || ('a' ≤ c && c ≤ 'f') || ('A' ≤ c && c ≤ 'F')

/-- Opens an array or object; fails past `maxNestingDepth`. -/
def pushParseState (s : Scanner) (fr : Frame) (next : Mode) : Option Scanner :=
  if (fr :: s.parseState).length ≤ maxNestingDepth then
    some { s with parseState := fr :: s.parseState, step := next, done := none }
  else none

/-- Closes the innermost array or object, `v` being its value and `rest` the
stack below it. -/
def popParseState (s : Scanner) (rest : List Frame) (v : JValue) : Scanner :=
  { s with parseState := rest, done := some v,
           step := if rest.isEmpty then .endTop else .endValue }

/-- After the top-level value only white space may follow. -/
def stateEndTop (s : Scanner) (c : Char) : Option Scanner :=
  if isSpace c then some s else none

/-- After a value: the character that follows it inside the enclosing array or
object, or after the top-level value. -/
def stateEndValue (s : Scanner) (c : Char) : Option Scanner :=
  match s.parseState with
  | [] => stateEndTop { s with step := .endTop } c
  | top :: rest =>
    if isSpace c then some { s with step := .endValue }
    else
      match top with
      | .objectKey acc =>
        if c = ':' then
          match s.done with
          | some (.str k) =>
            some { s with parseState := .objectValue acc k :: rest,
                          step := .beginValue, done := none }
          | _ => none
        else none
      | .objectValue acc k =>
        match s.done with
        | none => none
        | some v =>
          if c = ',' then
            some { s with parseState := .objectKey (acc ++ [(k, v)]) :: rest,
                          step := .beginString, done := none }
          else if c = '}' then some (popParseState s rest (.obj (acc ++ [(k, v)])))
          else none
      | .arrayValue acc =>
        if c = ',' then
          some { s with parseState := .arrayValue (acc ++ s.done.toList) :: rest,
                        step := .beginValue, done := none }
        else if c = ']' then some (popParseState s rest (.arr (acc ++ s.done.toList)))
        else none

/-- At the beginning of a value. -/
def stateBeginValue (s : Scanner) (c : Char) : Option Scanner :=
  if isSpace c then some s
  else if c = '{' then pushParseState s (.objectKey []) .beginStringOrEmpty
  else if c = '[' then pushParseState s (.arrayValue []) .beginValueOrEmpty
  else if c = '"' then some { s with step := .inString, lit := [], done := none }
  else if c = '-' then some { s with step := .neg, lit := [c], done := none }
  else if c = '0' then some { s with step := .s0, lit := [c], done := none }
  else if c = 't' then some { s with step := .t, done := none }
  else if c = 'f' then some { s with step := .f, done := none }
  else if c = 'n' then some { s with step := .n, done := none }
  else if '1' ≤ c ∧ c ≤ '9' then some { s with step := .s1, lit := [c], done := none }
  else none

/-- After `[`. -/
def stateBeginValueOrEmpty (s : Scanner) (c : Char) : Option Scanner :=
  if isSpace c then some s
  else if c = ']' then stateEndValue s c
  else stateBeginValue s c

/-- After `,` in an object: a key must follow. -/
def stateBeginString (s : Scanner) (c : Char) : Option Scanner :=
  if isSpace c then some s
  else if c = '"' then some { s with step := .inString, lit := [], done := none }
  else none

/-- After `{`. -/
def stateBeginStringOrEmpty (s : Scanner) (c : Char) : Option Scanner :=
  if isSpace c then some s
  else if c = '}' then
    match s.parseState with
    | .objectKey acc :: rest => some (popParseState s rest (.obj acc))
    | _ => none
  else stateBeginString s c

/-- Ends a number literal at `c`, which is handed to `stateEndValue`. -/
def endNumber (s : Scanner) (c : Char) : Option Scanner :=
  stateEndValue { s with lit := [], done := some (.number (String.mk s.lit)) } c

/-- Keeps `c` as part of the current literal and moves to `next`. -/
def keep (s : Scanner) (c : Char) (next : Mode) : Option Scanner :=
  some { s with step := next, lit := s.lit ++ [c] }

/-- Expects the letter `x` of `true`, `false` or `null`. -/
def letter (s : Scanner) (c x : Char) (next : Mode) : Option Scanner :=
  if c = x then some { s with step := next } else none

/-- Expects the last letter `x` of `true`, `false` or `null`, completing `v`. -/
def lastLetter (s : Scanner) (c x : Char) (v : JValue) : Option Scanner :=
  if c = x then some { s with step := .endValue, done := some v } else none

/-- One character through the scanner; `none` is a syntax error. -/
def Scanner.next (s : Scanner) (c : Char) : Option Scanner :=
  match s.step with
  | .beginValue => stateBeginValue s c
  | .beginValueOrEmpty => stateBeginValueOrEmpty s c
  | .beginStringOrEmpty => stateBeginStringOrEmpty s c
  | .beginString => stateBeginString s c
  | .endValue => stateEndValue s c
  | .endTop => stateEndTop s c
  | .inString =>
    if c = '"' then
      some { s with step := .endValue, lit := [], done := some (.str (unquote s.lit)) }
    else if c = '\\' then keep s c .inStringEsc
    else if c.toNat < 0x20 then none
    else keep s c .inString
  | .inStringEsc =>
    if c = 'b' ∨ c = 'f' ∨ c = 'n' ∨ c = 'r' ∨ c = 't' ∨ c = '\\' ∨ c = '/' ∨ c = '"' then
      keep s c .inString
    else if c = 'u' then keep s c .inStringEscU
    else none
  | .inStringEscU => if isHex c then keep s c .inStringEscU1 else none
  | .inStringEscU1 => if isHex c then keep s c .inStringEscU12 else none
  | .inStringEscU12 => if isHex c then keep s c .inStringEscU123 else none
  | .inStringEscU123 => if isHex c then keep s c .inString else none
  | .neg =>
    if c = '0' then keep s c .s0
    else if '1' ≤ c ∧ c ≤ '9' then keep s c .s1
    else none
  | .s1 =>
    if isDigit c then keep s c .s1
    else if c = '.' then keep s c .dot
    else if c = 'e' ∨ c = 'E' then keep s c .e
    else endNumber s c
  | .s0 =>
    if c = '.' then keep s c .dot
    else if c = 'e' ∨ c = 'E' then keep s c .e
    else endNumber s c
  | .dot => if isDigit c then keep s c .dot0 else none
  | .dot0 =>
    if isDigit c then keep s c .dot0
    else if c = 'e' ∨ c = 'E' then keep s c .e
    else endNumber s c
  | .e =>
    if c = '+' ∨ c = '-' then keep s c .eSign
    else if isDigit c then keep s c .e0
    else none
  | .eSign => if isDigit c then keep s c .e0 else none
  | .e0 => if isDigit c then keep s c .e0 else endNumber s c
  | .t => letter s c 'r' .tr
  | .tr => letter s c 'u' .tru
  | .tru => lastLetter s c 'e' (.bool true)
  | .f => letter s c 'a' .fa
  | .fa => letter s c 'l' .fal
  | .fal => letter s c 's' .fals
  | .fals => lastLetter s c 'e' (.bool false)
  | .n => letter s c 'u' .nu
  | .nu => letter s c 'l' .nul
  | .nul => lastLetter s c 'l' .null

/-- Runs the scanner over the input. -/
def Scanner.run : Scanner → List Char → Option Scanner
  | s, [] => some s
  | s, c :: cs =>
    match s.next c with
    | none => none
    | some s2 => Scanner.run s2 cs

/-- The scanner as `reset` leaves it. -/
def Scanner.init : Scanner :=
  { step := .beginValue, parseState := [], lit := [], done := none }

/-- The end of the input (`scanner.eof`): the top-level value must be complete,
possibly after one more white space is fed. -/
def Scanner.eof (s : Scanner) : Option JValue :=
  if s.step = .endTop then s.done
  else
    match s.next ' ' with
    | none => none
    | some s2 => if s2.step = .endTop then s2.done else none

/-- The JSON value of a text, `none` when `checkValid` reports a syntax error. -/
def parseJSON (data : List Char) : Option JValue :=
  match Scanner.init.run data with
  | none => none
  | some s => s.eof

/-- The moves of the scanner between the quotes of a string literal, as a function
of the step alone: `none` at the closing quote and at a character the scanner
rejects. -/
def stringStep : Mode → Char → Option Mode
  | .inString, c =>
    if c = '"' then none
    else if c = '\\' then some .inStringEsc
    else if c.toNat < 0x20 then none
    else some .inString
  | .inStringEsc, c =>
    if c = 'b' ∨ c = 'f' ∨ c = 'n' ∨ c = 'r' ∨ c = 't' ∨ c = '\\' ∨ c = '/' ∨ c = '"' then
      some .inString
    else if c = 'u' then some .inStringEscU
    else none
  | .inStringEscU, c => if isHex c then some .inStringEscU1 else none
  | .inStringEscU1, c => if isHex c then some .inStringEscU12 else none
  | .inStringEscU12, c => if isHex c then some .inStringEscU123 else none
  | .inStringEscU123, c => if isHex c then some .inString else none
  | _, _ => none

/-- Runs `stringStep` over the characters. -/
def stringRun : Mode → List Char → Option Mode
  | m, [] => some m
  | m, c :: cs =>
    match stringStep m c with
    | none => none
    | some m2 => stringRun m2 cs

/-! ## Decoding into the structs of the program -/

/-- Folding of a character for the case-insensitive match of object keys against
field names: ASCII letters fold to lower case, and so do the two characters
outside ASCII whose simple case folding is an ASCII letter (U+017F, U+212A). -/
def foldChar (c : Char) : Char :=
  if 'A' ≤ c ∧ c ≤ 'Z' then Char.ofNat (c.toNat + 32)
  else if c = Char.ofNat 0x17f then 's'
  else if c = Char.ofNat 0x212a then 'k'
  else c

/-- Whether an object key selects the field with JSON name `name`
(`bytes.EqualFold`, exact for the ASCII field names of this program). -/
def equalFold (key name : String) : Bool :=
  key.data.map foldChar = name.data.map foldChar

/-- Keeps the first error recorded during decoding (`decodeState.saveError`). -/
def saveError (saved : Option GoError) (e : GoError) : Option GoError :=
  match saved with
  | some s => some s
  | none => some e

/-- Decodes a JSON value into a Go `string` holding `cur`: a JSON string is stored,
`null` changes nothing, any other value records a type error and changes nothing. -/
def storeString (v : JValue) (cur : String) (saved : Option GoError) :
    String × Option GoError :=
  match v with
  | .str s => (s, saved)
  | other =>
    match other.kind with
    | none => (cur, saved)
    | some k => (cur, saveError saved (.jsonType k "string"))

/-- Decodes the elements of a JSON array one by one into the slots of a slice:
`done` are the elements decoded so far, `slots` the content of the slots ahead
(a slot past them is empty).  Every element is decoded into its slot by
`storeString`, so an element that is `null` or of the wrong type leaves in the
slice what the slot held. -/
def arrayInto : List JValue → List String → List String → Option GoError →
    List String × List String × Option GoError
  | [], done, slots, saved => (done, slots, saved)
  | x :: rest, done, slots, saved =>
    let r := storeString x (slots.headD "") saved
    arrayInto rest (done ++ [r.1]) slots.tail r.2

/-- Decodes a JSON value into a Go `[]string` holding `cur`: an array is decoded
element by element over the slice (an empty array gives a new empty slice),
`null` gives the nil slice, any other value records a type error. -/
def storeSlice (v : JValue) (cur : StrSlice) (saved : Option GoError) :
    StrSlice × Option GoError :=
  match v with
  | .arr xs =>
    if xs.isEmpty then (.mk [] [], saved)
    else
      let slots := match cur with
        | .nil => []
        | .mk es sp => es ++ sp
      let r := arrayInto xs [] slots saved
      (.mk r.1 r.2.1, r.2.2)
  | other =>
    match other.kind with
    | none => (.nil, saved)
    | some k => (cur, saveError saved (.jsonType k "[]string"))

/-- The body of `json.Unmarshal(data, &target)` for a struct target: a syntax error
leaves the target untouched; an object is decoded member by member with
`setField`; `null` changes nothing; any other value is a type error. -/
def unmarshalStruct {α : Type} (setField : α → String → JValue → Option GoError → α × Option GoError)
    (goType : String) (data : String) (target : α) : α × Option GoError :=
  match parseJSON data.data with
  | none => (target, some .jsonSyntax)
  | some (.obj ms) => ms.foldl (fun st m => setField st.1 m.1 m.2 st.2) (target, none)
  | some other =>
    match other.kind with
    | none => (target, none)
    | some k => (target, some (.jsonType k goType))

/-- `RequestPayload` of `types.go`. -/
structure RequestPayload where
  DataElement : String := ""
  Data : StrSlice := .nil
deriving DecidableEq, Repr

/-- `Response` of `types.go`; the default is the zero value. -/
structure Response where
  Encoding : String := ""
  Results : StrSlice := .nil
  Success : String := ""
deriving DecidableEq, Repr

/-- `CloudWatchEventData` of `main.go`. -/
structure CloudWatchEventData where
  AccountNumber : String := ""
deriving DecidableEq, Repr

/-- Decodes one object member into a `Response` (tags `encoding`, `results`,
`success`); a key that selects no field is skipped. -/
def Response.setField (r : Response) (key : String) (v : JValue)
    (saved : Option GoError) : Response × Option GoError :=
  if equalFold key "encoding" then
    let x := storeString v r.Encoding saved
    ({ r with Encoding := x.1 }, x.2)
  else if equalFold key "results" then
    let x := storeSlice v r.Results saved
    ({ r with Results := x.1 }, x.2)
  else if equalFold key "success" then
    let x := storeString v r.Success saved
    ({ r with Success := x.1 }, x.2)
  else (r, saved)

/-- Decodes one object member into a `RequestPayload` (tags `data_element`, `data`). -/
def RequestPayload.setField (p : RequestPayload) (key : String) (v : JValue)
    (saved : Option GoError) : RequestPayload × Option GoError :=
  if equalFold key "data_element" then
    let x := storeString v p.DataElement saved
    ({ p with DataElement := x.1 }, x.2)
  else if equalFold key "data" then
    let x := storeSlice v p.Data saved
    ({ p with Data := x.1 }, x.2)
  else (p, saved)

/-- Decodes one object member into a `CloudWatchEventData` (tag `accountNumber`). -/
def CloudWatchEventData.setField (d : CloudWatchEventData) (key : String) (v : JValue)
    (saved : Option GoError) : CloudWatchEventData × Option GoError :=
  if equalFold key "accountNumber" then
    let x := storeString v d.AccountNumber saved
    ({ d with AccountNumber := x.1 }, x.2)
  else (d, saved)

/-- `json.Unmarshal(data, &response)`. -/
def unmarshalResponse (data : String) (response : Response) : Response × Option GoError :=
  unmarshalStruct Response.setField "detokenization.Response" data response

/-- `json.Unmarshal(data, &payload)` for a `RequestPayload`. -/
def unmarshalRequestPayload (data : String) (payload : RequestPayload) :
    RequestPayload × Option GoError :=
  unmarshalStruct RequestPayload.setField "detokenization.RequestPayload" data payload

/-- `json.Unmarshal(event.Detail, &eventData)`. -/
def unmarshalEventData (data : String) (eventData : CloudWatchEventData) :
    CloudWatchEventData × Option GoError :=
  unmarshalStruct CloudWatchEventData.setField "main.CloudWatchEventData" data eventData

/-! ## Encoding `RequestPayload` -/

/-- The digit of `"0123456789abcdef"` at index `n`. -/
def hexDigit (n : Nat) : Char :=
  if n < 10 then Char.ofNat (48 + n) else Char.ofNat (87 + n)

/-- The table `htmlSafeSet`: the ASCII characters `json.Marshal` writes unchanged. -/
def htmlSafe (c : Char) : Bool :=
  0x20 ≤ c.toNat && c.toNat < 0x80 && c ≠ '"' && c ≠ '&' && c ≠ '<' && c ≠ '>' && c ≠ '\\'

/-- What `json.Marshal` writes for one character of a string, HTML escaping on.
Backspace and form feed get their short escapes, as current Go writes them; older
releases write `\u0008` and `\u000c`, which unquote to the same characters. -/
def appendChar (c : Char) : List Char :=
  if c.toNat < 0x80 then
    if htmlSafe c then [c]
    else if c = '\\' ∨ c = '"' then ['\\', c]
    else if c = Char.ofNat 8 then ['\\', 'b']
    else if c = Char.ofNat 12 then ['\\', 'f']
    else if c = '\n' then ['\\', 'n']
    else if c = '\r' then ['\\', 'r']
    else if c = '\t' then ['\\', 't']
    else ['\\', 'u', '0', '0', hexDigit (c.toNat / 16), hexDigit (c.toNat % 16)]
  else if c = Char.ofNat 0x2028 ∨ c = Char.ofNat 0x2029 then
    ['\\', 'u', '2', '0', '2', hexDigit (c.toNat % 16)]
  else [c]

/-- The characters written between the quotes for a string. -/
def appendBody : List Char → List Char
  | [] => []
  | c :: cs => appendChar c ++ appendBody cs

/-- A string as a JSON string literal (`appendString`). -/
def appendString (s : String) : List Char :=
  '"' :: (appendBody s.data ++ ['"'])

/-- The elements of a slice after the first, each preceded by a comma. -/
def appendRest : List String → List Char
  | [] => []
  | s :: ss => ',' :: (appendString s ++ appendRest ss)

/-- A `[]string` as JSON: `null` for the nil slice, an array otherwise. -/
def appendSlice : StrSlice → List Char
  | .nil => "null".data
  | .mk [] _ => "[]".data
  | .mk (s :: ss) _ => '[' :: (appendString s ++ appendRest ss ++ [']'])

/-- The JSON text of a `RequestPayload`: its two fields in declaration order under
their tags. -/
def encodePayload (payload : RequestPayload) : String :=
  String.mk ("\x7b\"data_element\":".data ++ appendString payload.DataElement ++
    ",\"data\":".data ++ appendSlice payload.Data ++ ['}'])

/-- `json.Marshal(payload)`; it cannot fail for this struct. -/
def jsonMarshal (payload : RequestPayload) : Except GoError String :=
  .ok (encodePayload payload)

/-! ## The environment and the observable effects -/

/-- The request handed to `client.Do`: method, URL, the headers in the order the
program sets them, and the body. -/
structure HTTPRequest where
  Method : String
  URL : String
  Header : List (String × String)
  Body : String
deriving DecidableEq, Repr

/-- The response of `client.Do` as the program looks at it: the status code and
what `io.ReadAll(resp.Body)` gives, the body or a read error. -/
structure HTTPResponse where
  StatusCode : Nat
  Body : Except GoError String

/-- Everything the program takes from outside. `getenv` is `os.Getenv`;
`newRequestErr url` is the error of `http.NewRequest` for that URL, if it has
one (a URL that does not parse); `roundTrip` is `(*http.Client).Do`, a
transport error or a response. -/
structure World where
  getenv : String → String
  newRequestErr : String → Option GoError
  roundTrip : HTTPRequest → Except GoError HTTPResponse

/-- Log levels of `slog`. -/
inductive Level
  | debug | info | warn | error
deriving DecidableEq, Repr

/-- What a run does that can be observed from outside, in order: a log call, the
entry into `MakeDetokenizeRequest`, a call of `client.Do`, and the deferred
closing of the response body. -/
inductive Event
  | log (level : Level) (text : String)
  | call (url : String) (payload : RequestPayload)
  | dispatch (req : HTTPRequest)
  | closeBody
deriving DecidableEq, Repr

/-- The two results of `MakeDetokenizeRequest` and the events of the call. -/
structure Outcome where
  response : Response
  err : Option GoError
  trace : List Event
deriving DecidableEq, Repr

/-- The result of `handleRequest` and the events of the invocation. -/
structure HandlerOutcome where
  err : Option GoError
  trace : List Event
deriving DecidableEq, Repr

/-- Number of calls of `client.Do` in a trace. -/
def dispatchCount : List Event → Nat
  | [] => 0
  | .dispatch _ :: es => dispatchCount es + 1
  | _ :: es => dispatchCount es

/-- The arguments of the calls of `MakeDetokenizeRequest` in a trace, in order. -/
def callsOf : List Event → List (String × RequestPayload)
  | [] => []
  | .call url payload :: es => (url, payload) :: callsOf es
  | _ :: es => callsOf es

/-! ## `detokenization/detokenize.go` -/

/-- The request `MakeDetokenizeRequest` builds for a URL and an encoded payload. -/
def buildRequest (w : World) (url : String) (jsonData : String) : HTTPRequest :=
  { Method := "POST", URL := url, Body := jsonData,
    Header := [("Content-Type", "application/json"),
               ("Authorization", "Bearer " ++ w.getenv "AUTH_TOKEN"),
               ("api-key", w.getenv "API_KEY"),
               ("id-claim", w.getenv "ID-CLAIM")] }

/-- The request `MakeDetokenizeRequest` hands to `client.Do` for a URL and a payload. -/
def requestFor (w : World) (url : String) (payload : RequestPayload) : HTTPRequest :=
  buildRequest w url (encodePayload payload)

/-- The text of the error for a status code other than 200, 404 and 500. -/
def nonOKMessage (statusCode : Nat) : String :=
  "Received non-2xx response code: " ++ toString statusCode

/-- `MakeDetokenizeRequest(url, payload)`. -/
def MakeDetokenizeRequest (w : World) (url : String) (payload : RequestPayload) : Outcome :=
  let response : Response := {}
  match jsonMarshal payload with
  | .error err =>
    { response := response, err := some (.wrap "error marshalling JSON payload: " err),
      trace := [.log .error "Error marshalling JSON payload"] }
  | .ok jsonData =>
    let t1 := [Event.log .info "Payload marshalled successfully"]
    match w.newRequestErr url with
    | some err =>
      { response := response, err := some (.wrap "error creating request: " err),
        trace := t1 ++ [.log .error "Error creating HTTP request"] }
    | none =>
      let req := buildRequest w url jsonData
      match w.roundTrip req with
      | .error err =>
        { response := response, err := some (.wrap "error making request: " err),
          trace := t1 ++ [.dispatch req, .log .error "Error sending HTTP request"] }
      | .ok resp =>
        let t2 := t1 ++ [.dispatch req, .log .info "HTTP request sent successfully"]
        match resp.Body with
        | .error err =>
          { response := response, err := some (.wrap "error reading response body: " err),
            trace := t2 ++ [.log .error "Error reading response body", .closeBody] }
        | .ok body =>
          if resp.StatusCode = 200 then
            let t3 := t2 ++ [.log .info "Received 200 OK response"]
            match unmarshalResponse body response with
            | (decoded, some err) =>
              { response := decoded, err := some (.wrap "error unmarshalling response: " err),
                trace := t3 ++ [.log .error "Error unmarshalling response", .closeBody] }
            | (decoded, none) =>
              { response := decoded, err := none,
                trace := t3 ++ [.log .info "Received API response successfully", .closeBody] }
          else if resp.StatusCode = 404 then
            { response := response,
              err := some (.msg ("resource not found (404) for URL: " ++ url)),
              trace := t2 ++ [.log .warn "Resource not found (404)", .closeBody] }
          else if resp.StatusCode = 500 then
            { response := response,
              err := some (.msg ("internal server error (500) for URL: " ++ url)),
              trace := t2 ++ [.log .error "Internal server error (500)", .closeBody] }
          else
            let errMsg := nonOKMessage resp.StatusCode
            { response := response,
              err := some (.msg (errMsg ++ ", body: " ++ body)),
              trace := t2 ++ [.log .warn errMsg, .closeBody] }

/-! ## `main.go` -/

/-- The constant `detokenizePath`. -/
def detokenizePath : String := "/v1/data/sdm-protect/cloud-protegrity/unprotect"

/-- The constant `apiEndPointEnvVar`. -/
def apiEndPointEnvVar : String := "API_ENDPOINT"

/-- The constant `dataElement`. -/
def dataElement : String := "deACCOUNTNUM"

/-- `events.CloudWatchEvent`: the handler reads only `Detail`, the raw JSON of the
event detail (the other fields are only logged). -/
structure CloudWatchEvent where
  Detail : String
deriving DecidableEq, Repr

/-- `handleRequest(ctx, event)`. -/
def handleRequest (w : World) (event : CloudWatchEvent) : HandlerOutcome :=
  let t0 := [Event.log .debug "Received following"]
  let apiEndPoint := w.getenv apiEndPointEnvVar
  if apiEndPoint = "" then
    { err := some (.msg "API Endpoint is required in the environment variables"),
      trace := t0 ++ [.log .error "API Endpoint is missing in the environment variables"] }
  else
    match unmarshalEventData event.Detail {} with
    | (_, some err) =>
      { err := some (.wrap "failed to unmarshal event detail: " err),
        trace := t0 ++ [.log .error "Error unmarshalling event detail"] }
    | (eventData, none) =>
      if eventData.AccountNumber = "" then
        { err := some (.msg "AccountNumber is required in the event data"),
          trace := t0 ++ [.log .error "AccountNumber is missing in the event data"] }
      else
        let payload : RequestPayload :=
          { DataElement := dataElement, Data := .mk [eventData.AccountNumber] [] }
        let url := apiEndPoint ++ detokenizePath
        let r := MakeDetokenizeRequest w url payload
        let t1 := t0 ++ [.call url payload] ++ r.trace
        match r.err with
        | some err =>
          { err := some (.wrap "detokenization request failed: " err),
            trace := t1 ++ [.log .error "Error in detokenization request"] }
        | none =>
          { err := none, trace := t1 ++ [.log .info "Detokenization request successful"] }

/-! ## Shapes of JSON values, as the specification words them -/

/-- The text of a JSON string, `none` for any other value. -/
def JValue.string? : JValue → Option String
  | .str s => some s
  | _ => none

/-- The texts of a list of JSON values that are all strings. -/
def stringsOf : List JValue → Option (List String)
  | [] => some []
  | .str s :: xs => (stringsOf xs).map (fun ss => s :: ss)
  | _ :: _ => none

/-- The texts of a JSON array all of whose elements are strings. -/
def JValue.strings? : JValue → Option (List String)
  | .arr xs => stringsOf xs
  | _ => none

/-- The object has a member for the field `name` (keys are matched as
`equalFold` does), and every member for it satisfies `p`. -/
def fieldOf (ms : List (String × JValue)) (name : String) (p : JValue → Bool) : Bool :=
  ms.any (fun m => equalFold m.1 name) && ms.all (fun m => !equalFold m.1 name || p m.2)

/-- No member for the field `name` fails `p` (the field may be missing). -/
def fieldOpt (ms : List (String × JValue)) (name : String) (p : JValue → Bool) : Bool :=
  ms.all (fun m => !equalFold m.1 name || p m.2)

/-- A value a Go `string` accepts: a JSON string or `null`. -/
def fitsString : JValue → Bool
  | .str _ => true
  | .null => true
  | _ => false

/-- A value a Go `[]string` accepts: `null`, or an array of strings and `null`s. -/
def fitsStrings : JValue → Bool
  | .arr xs => xs.all fitsString
  | .null => true
  | _ => false

/-- What decoding into a `Response` asks of one object member. -/
def memberOK (m : String × JValue) : Bool :=
  (!equalFold m.1 "encoding" || fitsString m.2) &&
    (!equalFold m.1 "results" || fitsStrings m.2) &&
    (!equalFold m.1 "success" || fitsString m.2)

/-- A body `json.Unmarshal` takes into a `Response` without error: `null`, or an
object in which every member for `encoding` or `success` is a string or `null`
and every member for `results` is `null` or an array of strings and `null`s.
Members for no field, and missing fields, are allowed. -/
def lenientShape : JValue → Bool
  | .null => true
  | .obj ms => fieldOpt ms "encoding" fitsString && fieldOpt ms "results" fitsStrings &&
      fieldOpt ms "success" fitsString
  | _ => false

/-- The JSON value `json.Marshal` writes for a `[]string`. -/
def sliceValue : StrSlice → JValue
  | .nil => .null
  | .mk es _ => .arr (es.map JValue.str)

/-- Whether `json.Unmarshal` takes the body into a `Response` without error, in the
words of the shapes above. -/
def accepted (body : String) : Bool :=
  match parseJSON body.data with
  | some v => lenientShape v
  | none => false

/-- Whether a call reaches the decoding of a 200 body that is a syntactically valid
JSON object: the request is constructed, the dispatch and the body read succeed,
the status is 200 and the body parses to an object. -/
def decodesObject (w : World) (url : String) (payload : RequestPayload) : Bool :=
  match w.newRequestErr url with
  | some _ => false
  | none =>
    match w.roundTrip (requestFor w url payload) with
    | .error _ => false
    | .ok resp =>
      match resp.Body with
      | .error _ => false
      | .ok body =>
        if resp.StatusCode = 200 then
          match parseJSON body.data with
          | some (.obj _) => true
          | _ => false
        else false

/-! ## Concrete worlds and inputs -/

/-- A world with the endpoint configured, in which every URL is accepted and
every request is answered with the given status code and body. -/
def answering (statusCode : Nat) (body : String) : World :=
  { getenv := fun k => if k = "API_ENDPOINT" then "https://tok.example" else "",
    newRequestErr := fun _ => none,
    roundTrip := fun _ => .ok { StatusCode := statusCode, Body := .ok body } }

/-- A world in which no environment variable is set. -/
def unconfigured : World :=
  { getenv := fun _ => "",
    newRequestErr := fun _ => none,
    roundTrip := fun _ => .ok { StatusCode := 200, Body := .ok "\x7b\x7d" } }

/-- A world in which `http.NewRequest` rejects every URL. -/
def rejectingURLs : World :=
  { getenv := fun _ => "",
    newRequestErr := fun _ => some (.msg "parse \":\": missing protocol scheme"),
    roundTrip := fun _ => .ok { StatusCode := 200, Body := .ok "\x7b\x7d" } }

/-- A world in which every dispatch fails with "connection refused". -/
def refusing : World :=
  { getenv := fun k => if k = "API_ENDPOINT" then "https://tok.example" else "",
    newRequestErr := fun _ => none,
    roundTrip := fun _ => .error (.msg "dial tcp: connection refused") }

/-- The payload of the specification's round-trip example. -/
def samplePayload : RequestPayload :=
  { DataElement := "deACCOUNTNUM", Data := .mk ["123456"] [] }

/-- A response body of the expected shape. -/
def sampleBody : String :=
  "\x7b\"encoding\":\"utf8\",\"results\":[\"4111\",\"4222\"],\"success\":\"true\"\x7d"

/-- A response body whose `results` member is a number. -/
def mistypedBody : String := "\x7b\"encoding\":\"utf8\",\"results\":5\x7d"

/-! ## Lemmas on decoding -/

/-- Decoding into a string records no error exactly when none was recorded before and the value
is a string or `null`. -/
theorem storeString_err (v : JValue) (cur : String) (saved : Option GoError) :
    (storeString v cur saved).2 = none ↔ saved = none ∧ fitsString v = true := by
  cases v <;> cases saved <;> simp [storeString, JValue.kind, saveError, fitsString]

theorem arrayInto_err (xs : List JValue) (done slots : List String) (saved : Option GoError) :
    (arrayInto xs done slots saved).2.2 = none ↔ saved = none ∧ xs.all fitsString = true := by
  induction xs generalizing done slots saved with
  | nil => simp [arrayInto]
  | cons x rest ih =>
    simp only [arrayInto, ih, storeString_err, List.all_cons, Bool.and_eq_true]
    tauto

theorem storeSlice_err (v : JValue) (cur : StrSlice) (saved : Option GoError) :
    (storeSlice v cur saved).2 = none ↔ saved = none ∧ fitsStrings v = true := by
  cases v with
  | arr xs =>
    simp only [storeSlice, fitsStrings]
    split
    · rename_i h
      simp only [List.isEmpty_iff] at h
      subst h
      simp
    · simp [arrayInto_err]
  | _ => cases saved <;> simp [storeSlice, JValue.kind, saveError, fitsStrings]

theorem equalFold_names {k a b : String} (ha : equalFold k a = true) (hb : equalFold k b = true) :
    a.data.map foldChar = b.data.map foldChar := by
  simp only [equalFold, decide_eq_true_eq] at ha hb
  rw [← ha, ← hb]

theorem Response.setField_err (r : Response) (k : String) (v : JValue) (saved : Option GoError) :
    (r.setField k v saved).2 = none ↔ saved = none ∧ memberOK (k, v) = true := by
  unfold Response.setField memberOK
  by_cases h1 : equalFold k "encoding" = true
  · have h2 : equalFold k "results" = false := by
      cases h : equalFold k "results" with
      | false => rfl
      | true => exact absurd (equalFold_names h1 h) (by decide)
    have h3 : equalFold k "success" = false := by
      cases h : equalFold k "success" with
      | false => rfl
      | true => exact absurd (equalFold_names h1 h) (by decide)
    simp [h1, h2, h3, storeString_err]
  · by_cases h2 : equalFold k "results" = true
    · have h3 : equalFold k "success" = false := by
        cases h : equalFold k "success" with
        | false => rfl
        | true => exact absurd (equalFold_names h2 h) (by decide)
      simp [h1, h2, h3, storeSlice_err]
    · by_cases h3 : equalFold k "success" = true
      · simp [h1, h2, h3, storeString_err]
      · simp [h1, h2, h3]

theorem foldl_setField_err (ms : List (String × JValue)) (r : Response) (saved : Option GoError) :
    (ms.foldl (fun st m => Response.setField st.1 m.1 m.2 st.2) (r, saved)).2 = none ↔
      saved = none ∧ ms.all memberOK = true := by
  induction ms generalizing r saved with
  | nil => simp
  | cons m rest ih =>
    simp only [List.foldl_cons, List.all_cons, Bool.and_eq_true]
    rw [show Response.setField r m.1 m.2 saved =
        ((Response.setField r m.1 m.2 saved).1, (Response.setField r m.1 m.2 saved).2) from rfl,
      ih, Response.setField_err]
    tauto

theorem all_memberOK (ms : List (String × JValue)) :
    ms.all memberOK = lenientShape (.obj ms) := by
  simp only [lenientShape, fieldOpt]
  induction ms with
  | nil => rfl
  | cons m rest ih =>
    simp only [List.all_cons, ih, memberOK]
    cases (!equalFold m.1 "encoding" || fitsString m.2) <;>
    cases (!equalFold m.1 "results" || fitsStrings m.2) <;>
    cases (!equalFold m.1 "success" || fitsString m.2) <;> simp

/-- Decoding a body into a Response gives no error exactly when the body parses to a value of
the lenient shape. -/
theorem unmarshalResponse_err (body : String) (r : Response) :
    (unmarshalResponse body r).2 = none ↔ ∃ v, parseJSON body.data = some v ∧ lenientShape v = true := by
  unfold unmarshalResponse unmarshalStruct
  cases h : parseJSON body.data with
  | none => simp
  | some v =>
    cases v with
    | obj ms => simp [foldl_setField_err, all_memberOK]
    | _ => simp [JValue.kind, lenientShape]

theorem string?_eq {v : JValue} {e : String} (h : v.string? = some e) : v = .str e := by
  cases v <;> simp [JValue.string?] at h
  subst h; rfl

theorem stringsOf_eq {xs : List JValue} {rs : List String} (h : stringsOf xs = some rs) :
    xs = rs.map JValue.str := by
  induction xs generalizing rs with
  | nil => simp [stringsOf] at h; subst h; rfl
  | cons x rest ih =>
    cases x <;> simp [stringsOf] at h
    obtain ⟨ss, hss, rfl⟩ := h
    simp [ih hss]

theorem strings?_eq {v : JValue} {rs : List String} (h : v.strings? = some rs) :
    v = .arr (rs.map JValue.str) := by
  cases v <;> simp [JValue.strings?] at h
  rw [stringsOf_eq h]

theorem arrayInto_strs (rs done slots : List String) (saved : Option GoError) :
    arrayInto (rs.map JValue.str) done slots saved = (done ++ rs, slots.drop rs.length, saved) := by
  induction rs generalizing done slots with
  | nil => simp [arrayInto]
  | cons s rest ih =>
    simp only [List.map_cons, arrayInto, storeString, ih, List.length_cons]
    simp [List.drop_succ_cons, List.tail_drop]

theorem storeSlice_strs (rs : List String) (cur : StrSlice) (saved : Option GoError)
    (hcur : cur = .nil ∨ cur = .mk rs []) :
    storeSlice (.arr (rs.map JValue.str)) cur saved = (.mk rs [], saved) := by
  cases rs with
  | nil => simp [storeSlice]
  | cons s rest =>
    have h := arrayInto_strs (s :: rest) []
    simp only [List.map_cons] at h
    rcases hcur with rfl | rfl <;> simp [storeSlice, h]

theorem equalFold_excl {k a b : String} (hab : a.data.map foldChar ≠ b.data.map foldChar)
    (ha : equalFold k a = true) : equalFold k b = false := by
  cases h : equalFold k b with
  | false => rfl
  | true => exact absurd (equalFold_names ha h) hab

theorem foldl_setField_shape (ms : List (String × JValue)) (e s : String) (rs : List String)
    (hE : fieldOpt ms "encoding" (fun v => v.string? == some e) = true)
    (hR : fieldOpt ms "results" (fun v => v.strings? == some rs) = true)
    (hS : fieldOpt ms "success" (fun v => v.string? == some s) = true) :
    ms.foldl (fun st m => Response.setField st.1 m.1 m.2 st.2) ({}, none) =
      ({ Encoding := if ms.any (fun m => equalFold m.1 "encoding") then e else "",
         Results := if ms.any (fun m => equalFold m.1 "results") then .mk rs [] else .nil,
         Success := if ms.any (fun m => equalFold m.1 "success") then s else "" }, none) := by
  induction ms using List.reverseRecOn with
  | nil => rfl
  | append_singleton ms m ih =>
    simp only [fieldOpt, List.all_append, List.all_cons, List.all_nil, Bool.and_true,
      Bool.and_eq_true, Bool.or_eq_true, Bool.not_eq_true', beq_iff_eq] at hE hR hS
    rw [List.foldl_append, ih (by simpa [fieldOpt] using hE.1) (by simpa [fieldOpt] using hR.1)
      (by simpa [fieldOpt] using hS.1)]
    simp only [List.foldl_cons, List.foldl_nil, List.any_append, List.any_cons, List.any_nil,
      Bool.or_false]
    obtain ⟨k, v⟩ := m
    simp only at hE hR hS ⊢
    generalize (ms.any fun m => equalFold m.1 "encoding") = a
    generalize (ms.any fun m => equalFold m.1 "results") = b
    generalize (ms.any fun m => equalFold m.1 "success") = c
    unfold Response.setField
    cases h1 : equalFold k "encoding" with
    | true =>
      have hv := string?_eq (hE.2.resolve_left (by simp [h1]))
      have h2 := equalFold_excl (b := "results") (by decide) h1
      have h3 := equalFold_excl (b := "success") (by decide) h1
      subst hv
      cases a <;> cases b <;> cases c <;> simp [h2, h3, storeString]
    | false =>
      cases h2 : equalFold k "results" with
      | true =>
        have hv := strings?_eq (hR.2.resolve_left (by simp [h2]))
        have h3 := equalFold_excl (b := "success") (by decide) h2
        subst hv
        simp only [h3, Bool.false_eq_true, if_false, if_true, Bool.or_false, Bool.or_true]
        rw [storeSlice_strs]
        · cases a <;> cases b <;> cases c <;> simp
      | false =>
        cases h3 : equalFold k "success" with
        | true =>
          have hv := string?_eq (hS.2.resolve_left (by simp [h3]))
          subst hv
          cases a <;> cases b <;> cases c <;> simp [storeString]
        | false => cases a <;> cases b <;> cases c <;> simp

/-- A body that parses to an object with a string `encoding`, an array of strings `results` and
a string `success` decodes into exactly these fields. -/
theorem unmarshalResponse_shape (body : String) (ms : List (String × JValue)) (e s : String)
    (rs : List String) (hparse : parseJSON body.data = some (.obj ms))
    (hE : fieldOf ms "encoding" (fun v => v.string? == some e) = true)
    (hR : fieldOf ms "results" (fun v => v.strings? == some rs) = true)
    (hS : fieldOf ms "success" (fun v => v.string? == some s) = true) :
    unmarshalResponse body {} = ({ Encoding := e, Results := .mk rs [], Success := s }, none) := by
  simp only [fieldOf, Bool.and_eq_true] at hE hR hS
  unfold unmarshalResponse unmarshalStruct
  rw [hparse]
  simp only
  rw [foldl_setField_shape ms e s rs hE.2 hR.2 hS.2, hE.1, hR.1, hS.1]
  rfl

/-! ## Lemmas on the two functions -/

/-- The result of `MakeDetokenizeRequest` once the request is built and the exchange gives a
status code and a body. -/
theorem answered (w : World) (url : String) (payload : RequestPayload) (c : Nat) (body : String)
    (hnew : w.newRequestErr url = none)
    (hdo : w.roundTrip (requestFor w url payload) = .ok { StatusCode := c, Body := .ok body }) :
    MakeDetokenizeRequest w url payload =
      if c = 200 then
        match unmarshalResponse body {} with
        | (decoded, some err) =>
          { response := decoded, err := some (.wrap "error unmarshalling response: " err),
            trace := [.log .info "Payload marshalled successfully", .dispatch (requestFor w url payload),
              .log .info "HTTP request sent successfully",  .log .info "Received 200 OK response",
              .log .error "Error unmarshalling response", .closeBody] }
        | (decoded, none) =>
          { response := decoded, err := none,
            trace := [.log .info "Payload marshalled successfully", .dispatch (requestFor w url payload),
              .log .info "HTTP request sent successfully",  .log .info "Received 200 OK response",
              .log .info "Received API response successfully", .closeBody] }
      else if c = 404 then
        { response := {}, err := some (.msg ("resource not found (404) for URL: " ++ url)),
          trace := [.log .info "Payload marshalled successfully", .dispatch (requestFor w url payload),
              .log .info "HTTP request sent successfully", .log .warn "Resource not found (404)", .closeBody] }
      else if c = 500 then
        { response := {}, err := some (.msg ("internal server error (500) for URL: " ++ url)),
          trace := [.log .info "Payload marshalled successfully", .dispatch (requestFor w url payload),
              .log .info "HTTP request sent successfully", .log .error "Internal server error (500)", .closeBody] }
      else
        { response := {}, err := some (.msg (nonOKMessage c ++ ", body: " ++ body)),
          trace := [.log .info "Payload marshalled successfully", .dispatch (requestFor w url payload),
              .log .info "HTTP request sent successfully", .log .warn (nonOKMessage c), .closeBody] } := by
  unfold requestFor at hdo
  unfold MakeDetokenizeRequest
  simp only [jsonMarshal, hnew, hdo, requestFor, List.cons_append, List.nil_append]

/-- A call of `MakeDetokenizeRequest` does not enter itself again, and dispatches once if the
request is built and not at all otherwise. -/
theorem trace_counts (w : World) (url : String) (payload : RequestPayload) :
    callsOf (MakeDetokenizeRequest w url payload).trace = [] ∧
    dispatchCount (MakeDetokenizeRequest w url payload).trace =
      (if w.newRequestErr url = none then 1 else 0) := by
  cases hnew : w.newRequestErr url with
  | some err => simp [MakeDetokenizeRequest, jsonMarshal, hnew, callsOf, dispatchCount]
  | none =>
    cases hdo : w.roundTrip (requestFor w url payload) with
    | error err =>
      unfold requestFor at hdo
      simp [MakeDetokenizeRequest, jsonMarshal, hnew, hdo, callsOf, dispatchCount]
    | ok resp =>
      obtain ⟨c, b⟩ := resp
      cases b with
      | error err =>
        unfold requestFor at hdo
        simp [MakeDetokenizeRequest, jsonMarshal, hnew, hdo, callsOf, dispatchCount]
      | ok body =>
        rw [answered w url payload c body hnew hdo]
        split
        · split <;> simp [callsOf, dispatchCount]
        · split
          · simp [callsOf, dispatchCount]
          · split <;> simp [callsOf, dispatchCount]

theorem callsOf_append (a b : List Event) : callsOf (a ++ b) = callsOf a ++ callsOf b := by
  induction a with
  | nil => rfl
  | cons x xs ih => cases x <;> simp [callsOf, ih]

theorem dispatchCount_append (a b : List Event) :
    dispatchCount (a ++ b) = dispatchCount a + dispatchCount b := by
  induction a with
  | nil => simp [dispatchCount]
  | cons x xs ih =>
    cases x <;> simp [dispatchCount, ih]
    omega

theorem foldl_event_empty (ms : List (String × JValue))
    (h : fieldOpt ms "accountNumber" (fun v => v.string? == some "") = true) :
    ms.foldl (fun st m => CloudWatchEventData.setField st.1 m.1 m.2 st.2) ({}, none) =
      ({}, none) := by
  induction ms with
  | nil => rfl
  | cons m rest ih =>
    simp only [fieldOpt, List.all_cons, Bool.and_eq_true, Bool.or_eq_true, Bool.not_eq_true',
      beq_iff_eq] at h
    obtain ⟨k, v⟩ := m
    simp only [List.foldl_cons, CloudWatchEventData.setField]
    cases hk : equalFold k "accountNumber" with
    | false => simpa using ih (by simpa [fieldOpt] using h.2)
    | true =>
      have hv := string?_eq (h.1.resolve_left (by simp [hk]))
      subst hv
      simpa [storeString] using ih (by simpa [fieldOpt] using h.2)

/-- An invocation calls `MakeDetokenizeRequest` not at all, or once with the configured URL and
the decoded non-empty account number. -/
theorem handleRequest_calls (w : World) (event : CloudWatchEvent) :
    callsOf (handleRequest w event).trace = [] ∨
    ∃ a, a ≠ "" ∧ w.getenv apiEndPointEnvVar ≠ "" ∧
      unmarshalEventData event.Detail {} = ({ AccountNumber := a }, none) ∧
      callsOf (handleRequest w event).trace =
        [(w.getenv apiEndPointEnvVar ++ detokenizePath,
          { DataElement := dataElement, Data := .mk [a] [] })] := by
  unfold handleRequest
  by_cases hep : w.getenv apiEndPointEnvVar = ""
  · left; simp [hep, callsOf]
  · simp only [hep, if_false]
    cases hdec : unmarshalEventData event.Detail {} with
    | mk d err =>
      cases err with
      | some err => left; simp [callsOf]
      | none =>
        by_cases ha : d.AccountNumber = ""
        · left; simp [ha, callsOf]
        · right
          refine ⟨d.AccountNumber, ha, hep, rfl, ?_⟩
          simp only [ha, if_false]
          split <;>
            simp [callsOf_append, callsOf, (trace_counts w _ _).1]

/-! ## Lemmas on the scanner and on encoding -/

/-- What the encoder writes for an ASCII character keeps the scanner inside the string. -/
theorem stringRun_appendChar :
    ∀ n < 128, stringRun .inString (appendChar (Char.ofNat n)) = some .inString := by
  decide

/-- Unquoting what the encoder writes for an ASCII character gives the character back. -/
theorem unquoteFrom_appendChar :
    ∀ n < 128, unquoteFrom .plain (appendChar (Char.ofNat n)) = (.plain, [Char.ofNat n]) := by
  decide

theorem next_string (s : Scanner) (c : Char) (m : Mode) (h : stringStep s.step c = some m) :
    s.next c = some { s with step := m, lit := s.lit ++ [c] } := by
  obtain ⟨step, ps, l, d⟩ := s
  cases step <;> simp only [stringStep] at h <;> try contradiction
  all_goals
    simp only [Scanner.next, keep]
    split_ifs at h ⊢ <;> simp_all

theorem run_string (cs : List Char) (s : Scanner) (m : Mode)
    (h : stringRun s.step cs = some m) :
    s.run cs = some { s with step := m, lit := s.lit ++ cs } := by
  induction cs generalizing s with
  | nil =>
    simp only [stringRun, Option.some.injEq] at h
    subst h
    simp [Scanner.run]
  | cons c rest ih =>
    simp only [stringRun] at h
    cases hc : stringStep s.step c with
    | none => simp [hc] at h
    | some m2 =>
      simp only [hc] at h
      simp only [Scanner.run, next_string s c m2 hc]
      rw [ih _ h]
      simp

theorem stringRun_append (m : Mode) (a b : List Char) :
    stringRun m (a ++ b) = (stringRun m a).bind (fun m2 => stringRun m2 b) := by
  induction a generalizing m with
  | nil => rfl
  | cons c rest ih =>
    simp only [List.cons_append, stringRun]
    cases stringStep m c with
    | none => rfl
    | some m2 => exact ih m2

theorem stringRun_body (cs : List Char) (h : ∀ c ∈ cs, c.toNat < 128) :
    stringRun .inString (appendBody cs) = some .inString := by
  induction cs with
  | nil => rfl
  | cons c rest ih =>
    have hc := stringRun_appendChar c.toNat (h c (List.mem_cons_self _ _))
    rw [Char.ofNat_toNat] at hc
    simp only [appendBody, stringRun_append, hc, Option.some_bind]
    exact ih (fun x hx => h x (List.mem_cons_of_mem _ hx))

theorem unquoteFrom_append (q : UQ) (a b : List Char) :
    unquoteFrom q (a ++ b) =
      ((unquoteFrom (unquoteFrom q a).1 b).1,
        (unquoteFrom q a).2 ++ (unquoteFrom (unquoteFrom q a).1 b).2) := by
  induction a generalizing q with
  | nil => simp [unquoteFrom]
  | cons c rest ih => simp [unquoteFrom, ih]

theorem unquoteFrom_body (cs : List Char) (h : ∀ c ∈ cs, c.toNat < 128) :
    unquoteFrom .plain (appendBody cs) = (.plain, cs) := by
  induction cs with
  | nil => rfl
  | cons c rest ih =>
    have hc := unquoteFrom_appendChar c.toNat (h c (List.mem_cons_self _ _))
    rw [Char.ofNat_toNat] at hc
    simp only [appendBody, unquoteFrom_append, hc,
      ih (fun x hx => h x (List.mem_cons_of_mem _ hx))]
    rfl

theorem unquote_body (str : String) (h : ∀ c ∈ str.data, c.toNat < 128) :
    unquote (appendBody str.data) = str := by
  simp [unquote, unquoteFrom_body str.data h]

theorem run_append (s : Scanner) (a b : List Char) :
    s.run (a ++ b) = (s.run a).bind (fun s2 => s2.run b) := by
  induction a generalizing s with
  | nil => rfl
  | cons c rest ih =>
    simp only [List.cons_append, Scanner.run]
    cases s.next c with
    | none => rfl
    | some s2 => exact ih s2

/-- The scanner reads an encoded ASCII string as one string value, whose text is the string. -/
theorem run_literal (m : Mode) (ps : List Frame) (d : Option JValue) (str : String)
    (rest : List Char) (h : ∀ c ∈ str.data, c.toNat < 128)
    (hm : m = .beginValue ∨ m = .beginValueOrEmpty ∨ m = .beginString ∨
      m = .beginStringOrEmpty) :
    Scanner.run ⟨m, ps, [], d⟩ (appendString str ++ rest) =
      Scanner.run ⟨.endValue, ps, [], some (.str str)⟩ rest := by
  have h1 : Scanner.next ⟨m, ps, [], d⟩ '"' = some ⟨.inString, ps, [], none⟩ := by
    rcases hm with rfl | rfl | rfl | rfl <;> rfl
  have h2 : Scanner.run ⟨.inString, ps, [], none⟩ (appendBody str.data) =
      some ⟨.inString, ps, appendBody str.data, none⟩ := by
    rw [run_string (appendBody str.data) ⟨.inString, ps, [], none⟩ .inString
      (stringRun_body str.data h)]
    rfl
  have h3 : Scanner.next ⟨.inString, ps, appendBody str.data, none⟩ '"' =
      some ⟨.endValue, ps, [], some (.str (unquote (appendBody str.data)))⟩ := rfl
  have e : appendString str ++ rest = '"' :: (appendBody str.data ++ '"' :: rest) := by
    simp [appendString]
  rw [e, Scanner.run, h1]
  simp only
  rw [run_append, h2, Option.some_bind, Scanner.run, h3, unquote_body str h]

/-- The scanner reads the remaining elements of an encoded array and its closing bracket. -/
theorem run_rest (ss : List String) (acc : List JValue) (v : JValue) (ps : List Frame)
    (rest : List Char) (h : ∀ s ∈ ss, ∀ c ∈ s.data, c.toNat < 128) :
    Scanner.run ⟨.endValue, .arrayValue acc :: ps, [], some v⟩ (appendRest ss ++ ']' :: rest) =
      Scanner.run ⟨if ps.isEmpty then .endTop else .endValue, ps, [],
        some (.arr (acc ++ v :: ss.map JValue.str))⟩ rest := by
  induction ss generalizing acc v with
  | nil => rfl
  | cons s ss ih =>
    have e : appendRest (s :: ss) ++ ']' :: rest =
        ',' :: (appendString s ++ (appendRest ss ++ ']' :: rest)) := by
      simp [appendRest]
    have h1 : Scanner.next ⟨.endValue, .arrayValue acc :: ps, [], some v⟩ ',' =
        some ⟨.beginValue, .arrayValue (acc ++ [v]) :: ps, [], none⟩ := rfl
    rw [e, Scanner.run, h1]
    simp only
    rw [run_literal _ _ _ s _ (h s (List.mem_cons_self _ _)) (Or.inl rfl),
      ih _ _ (fun x hx => h x (List.mem_cons_of_mem _ hx))]
    simp

/-- The scanner reads an encoded slice, inside an object, as `sliceValue` of the slice. -/
theorem run_slice (data : StrSlice) (fr : Frame) (rest : List Char)
    (h : ∀ s ∈ data.toList, ∀ c ∈ s.data, c.toNat < 128) :
    Scanner.run ⟨.beginValue, [fr], [], none⟩ (appendSlice data ++ rest) =
      Scanner.run ⟨.endValue, [fr], [], some (sliceValue data)⟩ rest := by
  cases data with
  | nil => rfl
  | mk es sp =>
    cases es with
    | nil => rfl
    | cons s ss =>
      have e : appendSlice (.mk (s :: ss) sp) ++ rest =
          '[' :: (appendString s ++ (appendRest ss ++ ']' :: rest)) := by
        simp [appendSlice]
      have h1 : Scanner.next ⟨.beginValue, [fr], [], none⟩ '[' =
          some ⟨.beginValueOrEmpty, [.arrayValue [], fr], [], none⟩ := rfl
      simp only [StrSlice.toList] at h
      rw [e, Scanner.run, h1]
      simp only
      rw [run_literal _ _ _ s _ (h s (List.mem_cons_self _ _)) (Or.inr (Or.inl rfl)),
        run_rest ss [] _ _ _ (fun x hx => h x (List.mem_cons_of_mem _ hx))]
      rfl

/-- The text `json.Marshal` gives for an ASCII payload parses to the object with its two
members. -/
theorem parse_encodePayload (p : RequestPayload)
    (hde : ∀ c ∈ p.DataElement.data, c.toNat < 128)
    (hdata : ∀ s ∈ p.Data.toList, ∀ c ∈ s.data, c.toNat < 128) :
    parseJSON (encodePayload p).data =
      some (.obj [("data_element", .str p.DataElement), ("data", sliceValue p.Data)]) := by
  have h1 : ∀ rest, Scanner.run Scanner.init ("\x7b\"data_element\":".data ++ rest) =
      Scanner.run ⟨.beginValue, [.objectValue [] "data_element"], [], none⟩ rest :=
    fun _ => rfl
  have h2 : ∀ rest v, Scanner.run ⟨.endValue, [.objectValue [] "data_element"], [], some v⟩
        (",\"data\":".data ++ rest) =
      Scanner.run ⟨.beginValue, [.objectValue [("data_element", v)] "data"], [], none⟩ rest :=
    fun _ _ => rfl
  have h3 : ∀ acc k v, Scanner.run ⟨.endValue, [.objectValue acc k], [], some v⟩ ['}'] =
      some ⟨.endTop, [], [], some (.obj (acc ++ [(k, v)]))⟩ :=
    fun _ _ _ => rfl
  unfold parseJSON encodePayload
  simp only [List.append_assoc]
  rw [h1, run_literal _ _ _ _ _ hde (Or.inl rfl), h2, run_slice _ _ _ hdata, h3]
  rfl

/-! ## The claims -/

/-- C1. For a response with status 200 whose body is a JSON object with a string `encoding`,
an array of strings `results` and a string `success`, `MakeDetokenizeRequest` returns a nil
error and the Response holding exactly these fields, the results in their order; neither the
value of `success` nor the number of results is looked at. -/
theorem makeDetokenizeRequest_decodes (w : World) (url : String) (payload : RequestPayload)
    (body : String) (ms : List (String × JValue)) (e s : String) (rs : List String)
    (hnew : w.newRequestErr url = none)
    (hdo : w.roundTrip (requestFor w url payload) = .ok { StatusCode := 200, Body := .ok body })
    (hparse : parseJSON body.data = some (.obj ms))
    (hE : fieldOf ms "encoding" (fun v => v.string? == some e) = true)
    (hR : fieldOf ms "results" (fun v => v.strings? == some rs) = true)
    (hS : fieldOf ms "success" (fun v => v.string? == some s) = true) :
    (MakeDetokenizeRequest w url payload).err = none ∧
    (MakeDetokenizeRequest w url payload).response =
      { Encoding := e, Results := .mk rs [], Success := s } ∧
    (MakeDetokenizeRequest w url payload).response.Results.toList = rs := by
  rw [answered w url payload 200 body hnew hdo,
    unmarshalResponse_shape body ms e s rs hparse hE hR hS]
  simp [StrSlice.toList]

/-- C1 at a concrete exchange: status 200 with a body of the expected shape, two results for the
one token sent. -/
theorem makeDetokenizeRequest_decodes_witness :
    parseJSON sampleBody.data = some (.obj [("encoding", .str "utf8"),
      ("results", .arr [.str "4111", .str "4222"]), ("success", .str "true")]) ∧
    (MakeDetokenizeRequest (answering 200 sampleBody) "https://tok.example/u" samplePayload).err
      = none ∧
    (MakeDetokenizeRequest (answering 200 sampleBody) "https://tok.example/u" samplePayload).response
      = { Encoding := "utf8", Results := .mk ["4111", "4222"] [], Success := "true" } ∧
    (MakeDetokenizeRequest (answering 200 sampleBody) "https://tok.example/u"
      samplePayload).response.Results.toList = ["4111", "4222"] :=
  ⟨rfl, makeDetokenizeRequest_decodes (answering 200 sampleBody) "https://tok.example/u"
    samplePayload sampleBody _ "utf8" "true" ["4111", "4222"] rfl rfl rfl
    (by decide) (by decide) (by decide)⟩

/-- C2. For a response with status 404 or 500, whatever its body, `MakeDetokenizeRequest`
returns the zero Response and the error whose text is "resource not found (404) for URL: "
followed by the URL, respectively "internal server error (500) for URL: " followed by the
URL; the body does not appear in the result. -/
theorem makeDetokenizeRequest_404_500 (w : World) (url : String) (payload : RequestPayload)
    (c : Nat) (body : String)
    (hnew : w.newRequestErr url = none)
    (hdo : w.roundTrip (requestFor w url payload) = .ok { StatusCode := c, Body := .ok body })
    (hc : c = 404 ∨ c = 500) :
    (MakeDetokenizeRequest w url payload).response = {} ∧
    (MakeDetokenizeRequest w url payload).err =
      some (.msg ((if c = 404 then "resource not found (404)" else "internal server error (500)")
        ++ " for URL: " ++ url)) := by
  rw [answered w url payload c body hnew hdo]
  rcases hc with rfl | rfl
  · exact ⟨rfl, by simp⟩
  · exact ⟨rfl, by simp⟩

/-- C2 at a concrete exchange: status 404 with a body that has the shape of a Response. -/
theorem makeDetokenizeRequest_404_500_witness :
    (MakeDetokenizeRequest (answering 404 sampleBody) "https://tok.example/u" samplePayload).response
      = {} ∧
    (MakeDetokenizeRequest (answering 404 sampleBody) "https://tok.example/u" samplePayload).err
      = some (.msg "resource not found (404) for URL: https://tok.example/u") :=
  makeDetokenizeRequest_404_500 (answering 404 sampleBody) "https://tok.example/u" samplePayload
    404 sampleBody rfl rfl (Or.inl rfl)

/-- C3. For a response with a status code other than 200, 404 and 500 and any body,
`MakeDetokenizeRequest` returns the zero Response (the body is not decoded, even when it has
the shape of a Response) and the error whose text is "Received non-2xx response code: ",
the status code in decimal, ", body: " and the body. -/
theorem makeDetokenizeRequest_other_status (w : World) (url : String) (payload : RequestPayload)
    (c : Nat) (body : String)
    (hnew : w.newRequestErr url = none)
    (hdo : w.roundTrip (requestFor w url payload) = .ok { StatusCode := c, Body := .ok body })
    (h200 : c ≠ 200) (h404 : c ≠ 404) (h500 : c ≠ 500) :
    (MakeDetokenizeRequest w url payload).response = {} ∧
    (MakeDetokenizeRequest w url payload).err =
      some (.msg ("Received non-2xx response code: " ++ toString c ++ ", body: " ++ body)) := by
  rw [answered w url payload c body hnew hdo]
  simp [h200, h404, h500, nonOKMessage]

/-- C3 at a concrete exchange: status 503 with a body that has the shape of a Response; the text
of the error carries "503" and the body. -/
theorem makeDetokenizeRequest_other_status_witness :
    (MakeDetokenizeRequest (answering 503 sampleBody) "https://tok.example/u" samplePayload).response
      = {} ∧
    (MakeDetokenizeRequest (answering 503 sampleBody) "https://tok.example/u" samplePayload).err
      = some (.msg ("Received non-2xx response code: 503, body: " ++ sampleBody)) :=
  makeDetokenizeRequest_other_status (answering 503 sampleBody) "https://tok.example/u"
    samplePayload 503 sampleBody rfl rfl (by decide) (by decide) (by decide)

/-- C4 fails as stated: with status 200 the body of an empty object, which has none of the three
fields, gives a nil error and the zero Response. -/
theorem empty_object_body_accepted :
    parseJSON "\x7b\x7d".data = some (.obj []) ∧
    (MakeDetokenizeRequest (answering 200 "\x7b\x7d") "https://tok.example/u" samplePayload).err = none ∧
    (MakeDetokenizeRequest (answering 200 "\x7b\x7d") "https://tok.example/u" samplePayload).response
      = {} := by
  refine ⟨rfl, ?_, ?_⟩ <;> decide

/-- C4 (amended). For a response with status 200, `MakeDetokenizeRequest` fails with the
decoding error ("error unmarshalling response: " wrapping the decoder's error) exactly when
the body is not valid JSON, or is a JSON value other than an object or `null`, or is an
object with a member for `encoding` or `success` that is neither a string nor `null`, or
with a member for `results` that is neither `null` nor an array of strings and `null`s.
Every other body, `{}`, `null` and objects with missing fields among them, gives a nil
error. -/
theorem makeDetokenizeRequest_decoding_error (w : World) (url : String)
    (payload : RequestPayload) (body : String)
    (hnew : w.newRequestErr url = none)
    (hdo : w.roundTrip (requestFor w url payload) = .ok { StatusCode := 200, Body := .ok body }) :
    (accepted body = true → (MakeDetokenizeRequest w url payload).err = none) ∧
    (accepted body = false → ∃ inner, (MakeDetokenizeRequest w url payload).err =
      some (.wrap "error unmarshalling response: " inner)) := by
  rw [answered w url payload 200 body hnew hdo]
  have h := unmarshalResponse_err body {}
  simp only [if_true]
  cases hu : unmarshalResponse body {} with
  | mk decoded err =>
    rw [hu] at h
    have hacc : accepted body = true ↔ ∃ v, parseJSON body.data = some v ∧ lenientShape v = true := by
      unfold accepted
      cases parseJSON body.data <;> simp
    cases err with
    | none =>
      refine ⟨fun _ => rfl, fun hf => ?_⟩
      have := hacc.mpr (h.mp rfl)
      simp [hf] at this
    | some err =>
      refine ⟨fun ht => ?_, fun _ => ⟨err, rfl⟩⟩
      have := h.mpr (hacc.mp ht)
      simp at this

/-- C4 (amended) at a concrete exchange: a body whose `results` member is a number gives the
decoding error. -/
theorem makeDetokenizeRequest_decoding_error_witness :
    accepted mistypedBody = false ∧
    ∃ inner, (MakeDetokenizeRequest (answering 200 mistypedBody) "https://tok.example/u"
      samplePayload).err = some (.wrap "error unmarshalling response: " inner) :=
  ⟨by decide, (makeDetokenizeRequest_decoding_error (answering 200 mistypedBody)
    "https://tok.example/u" samplePayload mistypedBody rfl rfl).2 (by decide)⟩

/-- C5 fails as stated: with `API_ENDPOINT` unset, an event whose account number is empty or
missing fails with the configuration error, not with the validation error. -/
theorem missing_account_without_endpoint :
    (handleRequest unconfigured { Detail := "\x7b\"accountNumber\":\"\"\x7d" }).err =
      some (.msg "API Endpoint is required in the environment variables") ∧
    (handleRequest unconfigured { Detail := "\x7b\x7d" }).err ≠
      some (.msg "AccountNumber is required in the event data") := by
  decide

/-- C5 (amended). When the endpoint base `API_ENDPOINT` is non-empty, for every event whose
detail is a JSON object in which `accountNumber` is missing or is the empty string,
`handleRequest` fails with "AccountNumber is required in the event data" and makes no
network call: `MakeDetokenizeRequest` is not invoked and nothing is dispatched. -/
theorem handleRequest_validation (w : World) (event : CloudWatchEvent)
    (ms : List (String × JValue))
    (hep : w.getenv apiEndPointEnvVar ≠ "")
    (hparse : parseJSON event.Detail.data = some (.obj ms))
    (hacc : fieldOpt ms "accountNumber" (fun v => v.string? == some "") = true) :
    (handleRequest w event).err = some (.msg "AccountNumber is required in the event data") ∧
    callsOf (handleRequest w event).trace = [] ∧
    dispatchCount (handleRequest w event).trace = 0 := by
  have hdec : unmarshalEventData event.Detail {} = ({}, none) := by
    unfold unmarshalEventData unmarshalStruct
    rw [hparse]
    exact foldl_event_empty ms hacc
  simp [handleRequest, hep, hdec, callsOf, dispatchCount]

/-- C5 (amended) at a concrete event: an object without `accountNumber`, endpoint configured. -/
theorem handleRequest_validation_witness :
    (handleRequest (answering 200 sampleBody) { Detail := "\x7b\"other\":1\x7d" }).err =
      some (.msg "AccountNumber is required in the event data") ∧
    callsOf (handleRequest (answering 200 sampleBody) { Detail := "\x7b\"other\":1\x7d" }).trace = [] ∧
    dispatchCount (handleRequest (answering 200 sampleBody) { Detail := "\x7b\"other\":1\x7d" }).trace
      = 0 :=
  handleRequest_validation (answering 200 sampleBody) { Detail := "\x7b\"other\":1\x7d" }
    [("other", .number "1")] (by decide) rfl (by decide)

/-- C6. For every event whose detail decodes to a non-empty account number `a`, with a
non-empty endpoint base `e`, `handleRequest` calls `MakeDetokenizeRequest` exactly once,
with the URL `e` followed by "/v1/data/sdm-protect/cloud-protegrity/unprotect" and the
payload with DataElement "deACCOUNTNUM" and Data holding the one element `a`. In every
invocation whatsoever, each payload handed to `MakeDetokenizeRequest` has a non-empty
DataElement and a non-empty Data. -/
theorem handleRequest_calls_once (w : World) (event : CloudWatchEvent) (a : String)
    (hep : w.getenv "API_ENDPOINT" ≠ "")
    (hdec : unmarshalEventData event.Detail {} = ({ AccountNumber := a }, none))
    (ha : a ≠ "") :
    callsOf (handleRequest w event).trace =
      [(w.getenv "API_ENDPOINT" ++ "/v1/data/sdm-protect/cloud-protegrity/unprotect",
        { DataElement := "deACCOUNTNUM", Data := .mk [a] [] })] ∧
    (∀ (w2 : World) (event2 : CloudWatchEvent) (c : String × RequestPayload),
      c ∈ callsOf (handleRequest w2 event2).trace →
        c.2.Data.toList ≠ [] ∧ c.2.DataElement ≠ "") := by
  constructor
  · rcases handleRequest_calls w event with h | ⟨a2, _, _, hdec2, h⟩
    · exfalso
      unfold handleRequest at h
      have hep2 : ¬ w.getenv apiEndPointEnvVar = "" := hep
      simp only [hep2, hdec, ha, if_false] at h
      revert h
      split <;> simp [callsOf_append, callsOf]
    · rw [hdec] at hdec2
      have : a = a2 := by simpa using hdec2
      subst this
      exact h
  · intro w2 event2 c hc
    rcases handleRequest_calls w2 event2 with h | ⟨a2, _, _, _, h⟩
    · simp [h] at hc
    · rw [h] at hc
      simp only [List.mem_singleton] at hc
      subst hc
      exact ⟨by simp [StrSlice.toList], by simp [dataElement]⟩

/-- C6 at a concrete event with account number "123456". -/
theorem handleRequest_calls_once_witness :
    unmarshalEventData "\x7b\"accountNumber\":\"123456\"\x7d" {} = ({ AccountNumber := "123456" }, none) ∧
    callsOf (handleRequest (answering 200 sampleBody)
        { Detail := "\x7b\"accountNumber\":\"123456\"\x7d" }).trace =
      [("https://tok.example/v1/data/sdm-protect/cloud-protegrity/unprotect",
        { DataElement := "deACCOUNTNUM", Data := .mk ["123456"] [] })] :=
  ⟨by decide, (handleRequest_calls_once (answering 200 sampleBody)
    { Detail := "\x7b\"accountNumber\":\"123456\"\x7d" } "123456" (by decide) (by decide)
    (by decide)).1⟩

/-- C7 fails as stated: when `http.NewRequest` rejects the URL the call returns the request
construction error without any dispatch attempt, so a path with no attempt exists. -/
theorem no_dispatch_when_request_is_not_built :
    (MakeDetokenizeRequest rejectingURLs ":" samplePayload).err =
      some (.wrap "error creating request: " (.msg "parse \":\": missing protocol scheme")) ∧
    dispatchCount (MakeDetokenizeRequest rejectingURLs ":" samplePayload).trace = 0 := by
  decide

/-- C7 (amended). When the dispatch fails at the transport level, `MakeDetokenizeRequest`
returns the zero Response and the error "error making request: " wrapping the underlying
failure. No path retries: a call makes exactly one dispatch attempt when the request could
be constructed, and none when `http.NewRequest` rejects the URL. -/
theorem makeDetokenizeRequest_transport (w : World) (url : String) (payload : RequestPayload) :
    (∀ e, w.newRequestErr url = none → w.roundTrip (requestFor w url payload) = .error e →
      (MakeDetokenizeRequest w url payload).response = {} ∧
      (MakeDetokenizeRequest w url payload).err = some (.wrap "error making request: " e) ∧
      dispatchCount (MakeDetokenizeRequest w url payload).trace = 1) ∧
    dispatchCount (MakeDetokenizeRequest w url payload).trace =
      (if w.newRequestErr url = none then 1 else 0) := by
  refine ⟨fun e hnew hdo => ?_, (trace_counts w url payload).2⟩
  unfold requestFor at hdo
  simp [MakeDetokenizeRequest, jsonMarshal, hnew, hdo, dispatchCount]

/-- C7 (amended) at a concrete exchange: the connection is refused, one attempt is made. -/
theorem makeDetokenizeRequest_transport_witness :
    (MakeDetokenizeRequest refusing "https://tok.example/u" samplePayload).response = {} ∧
    (MakeDetokenizeRequest refusing "https://tok.example/u" samplePayload).err =
      some (.wrap "error making request: " (.msg "dial tcp: connection refused")) ∧
    dispatchCount (MakeDetokenizeRequest refusing "https://tok.example/u" samplePayload).trace = 1 :=
  (makeDetokenizeRequest_transport refusing "https://tok.example/u" samplePayload).1 _ rfl rfl

/-- C8. When the endpoint base `API_ENDPOINT` is empty, `handleRequest` fails for every event
with "API Endpoint is required in the environment variables", without invoking
`MakeDetokenizeRequest` and without any dispatch; when it is non-empty, the handler never
returns that error. -/
theorem handleRequest_endpoint (w : World) (event : CloudWatchEvent) :
    if w.getenv "API_ENDPOINT" = "" then
      (handleRequest w event).err =
        some (.msg "API Endpoint is required in the environment variables") ∧
      callsOf (handleRequest w event).trace = [] ∧
      dispatchCount (handleRequest w event).trace = 0
    else
      (handleRequest w event).err ≠
        some (.msg "API Endpoint is required in the environment variables") := by
  by_cases hep : w.getenv "API_ENDPOINT" = ""
  · simp [handleRequest, apiEndPointEnvVar, hep, callsOf, dispatchCount]
  · simp only [hep, if_false]
    unfold handleRequest
    simp only [apiEndPointEnvVar, hep, if_false]
    split
    · simp
    · split
      · simp
      · split <;> simp

/-- C9. Round trip: for every RequestPayload whose DataElement and Data elements are ASCII
strings, `json.Marshal` succeeds, and decoding the text it gives back into a RequestPayload
succeeds and reproduces the structure: the same DataElement, the same Data elements in the
same order, and a nil Data exactly when the original was nil. -/
theorem payload_round_trip (p : RequestPayload)
    (hde : ∀ c ∈ p.DataElement.data, c.toNat < 128)
    (hdata : ∀ s ∈ p.Data.toList, ∀ c ∈ s.data, c.toNat < 128) :
    jsonMarshal p = .ok (encodePayload p) ∧
    (unmarshalRequestPayload (encodePayload p) {}).2 = none ∧
    (unmarshalRequestPayload (encodePayload p) {}).1.DataElement = p.DataElement ∧
    (unmarshalRequestPayload (encodePayload p) {}).1.Data.toList = p.Data.toList ∧
    (unmarshalRequestPayload (encodePayload p) {}).1.Data.isNil = p.Data.isNil := by
  have hk1 : equalFold "data_element" "data_element" = true := by decide
  have hk2 : equalFold "data" "data_element" = false := by decide
  have hk3 : equalFold "data" "data" = true := by decide
  have hdec : unmarshalRequestPayload (encodePayload p) {} =
      ({ DataElement := p.DataElement, Data := (storeSlice (sliceValue p.Data) .nil none).1 },
        (storeSlice (sliceValue p.Data) .nil none).2) := by
    unfold unmarshalRequestPayload unmarshalStruct
    rw [parse_encodePayload p hde hdata]
    simp [RequestPayload.setField, hk1, hk2, hk3, storeString]
  rw [hdec]
  refine ⟨rfl, ?_⟩
  cases hd : p.Data with
  | nil => simp [sliceValue, storeSlice, JValue.kind, StrSlice.toList, StrSlice.isNil]
  | mk es sp =>
    simp only [sliceValue]
    rw [storeSlice_strs es .nil none (Or.inl rfl)]
    simp [StrSlice.toList, StrSlice.isNil]

/-- C9 at the example payload: field name "deACCOUNTNUM", one value "123456". -/
theorem payload_round_trip_witness :
    encodePayload samplePayload = "\x7b\"data_element\":\"deACCOUNTNUM\",\"data\":[\"123456\"]\x7d" ∧
    unmarshalRequestPayload (encodePayload samplePayload) {} = (samplePayload, none) ∧
    (unmarshalRequestPayload (encodePayload samplePayload) {}).1.Data.toList = ["123456"] :=
  ⟨by decide, by decide,
    (payload_round_trip samplePayload (by decide) (by decide)).2.2.2.1⟩

/-- C10 fails as stated: with status 200 and a body whose `encoding` is a string and whose
`results` is a number, the decoding error is returned together with a Response that holds the
decoded `encoding`. -/
theorem decoded_fields_kept_on_type_error :
    (MakeDetokenizeRequest (answering 200 mistypedBody) "https://tok.example/u" samplePayload).err
      = some (.wrap "error unmarshalling response: " (.jsonType .number "[]string")) ∧
    (MakeDetokenizeRequest (answering 200 mistypedBody) "https://tok.example/u"
      samplePayload).response = { Encoding := "utf8", Results := .nil, Success := "" } ∧
    (MakeDetokenizeRequest (answering 200 mistypedBody) "https://tok.example/u"
      samplePayload).response ≠ {} := by
  decide

/-- C10 (amended). Whenever `MakeDetokenizeRequest` returns a non-nil error on a path other
than the decoding of a 200 body that is a syntactically valid JSON object, the Response it
returns alongside is the zero value: this covers marshalling, request construction,
transport, body read, the statuses 404, 500 and other, and 200 bodies that are not valid
JSON or not an object. -/
theorem makeDetokenizeRequest_zero_on_error (w : World) (url : String)
    (payload : RequestPayload)
    (herr : (MakeDetokenizeRequest w url payload).err ≠ none)
    (hpath : decodesObject w url payload = false) :
    (MakeDetokenizeRequest w url payload).response = {} := by
  cases hnew : w.newRequestErr url with
  | some err => simp [MakeDetokenizeRequest, jsonMarshal, hnew]
  | none =>
    cases hdo : w.roundTrip (requestFor w url payload) with
    | error err =>
      unfold requestFor at hdo
      simp [MakeDetokenizeRequest, jsonMarshal, hnew, hdo]
    | ok resp =>
      obtain ⟨c, b⟩ := resp
      cases b with
      | error err =>
        unfold requestFor at hdo
        simp [MakeDetokenizeRequest, jsonMarshal, hnew, hdo]
      | ok body =>
        rw [answered w url payload c body hnew hdo] at herr ⊢
        by_cases h200 : c = 200
        · subst h200
          simp only [decodesObject, hnew, hdo] at hpath
          simp only [if_true] at herr ⊢
          unfold unmarshalResponse unmarshalStruct at herr ⊢
          cases hp : parseJSON body.data with
          | none => rfl
          | some v =>
            cases v with
            | obj ms => simp [hp] at hpath
            | null => simp [hp, JValue.kind] at herr
            | _ => rfl
        · simp only [h200, if_false]
          split
          · rfl
          · split <;> rfl

/-- C10 (amended) at a concrete exchange: a 200 body that is not valid JSON gives an error and
the zero Response. -/
theorem makeDetokenizeRequest_zero_on_error_witness :
    (MakeDetokenizeRequest (answering 200 "[1") "https://tok.example/u" samplePayload).err ≠ none ∧
    (MakeDetokenizeRequest (answering 200 "[1") "https://tok.example/u" samplePayload).response
      = {} :=
  ⟨by decide, makeDetokenizeRequest_zero_on_error (answering 200 "[1") "https://tok.example/u"
    samplePayload (by decide) (by decide)⟩

end AcctExpansion
